/-
Verification of the PMGBP-PDEVS model generator
(`model_generator/PMGBP/ModelGenerator.py`).

Python dictionaries preserve insertion order, so every dict is embedded as
an association list `List (K × V)`; assignment `d[k] = v` is `dinsert`
(update in place when the key exists, append otherwise), dict comprehensions
are folds of `dinsert` over the comprehension's iteration order, and
`d[k]` reads are `dget` (raising `KeyError`, i.e. `Except`, when absent).
Functions that can raise (`assert`, `KeyError`, `max` of an empty dict)
return `Except GenError _`; total code paths are total functions.
-/
import Mathlib

namespace PMGBP

/-- Errors the generator can raise: a failed `assert` statement, a dict
lookup `KeyError`, and `max()` of an empty sequence (`ValueError`). -/
inductive GenError where
  | assertionError
  | keyError
  | valueError
deriving DecidableEq, Repr

/-- A Python port label: either an `int` port number or a string port name
(the source mixes both, e.g. `3` versus `"0_product"`). -/
inductive Port where
  | num (n : Nat)
  | str (s : String)
deriving DecidableEq, Repr

/-- `d[k] = v` on an insertion-ordered Python dict: replace the value in
place when `k` is already a key, append `(k, v)` otherwise. -/
def dinsert {K V : Type} [DecidableEq K] (k : K) (v : V) :
    List (K × V) → List (K × V)
  | [] => [(k, v)]
  | (k', v') :: t => if k' = k then (k, v) :: t else (k', v') :: dinsert k v t

/-- Keys of an association list. -/
def dkeys {K V : Type} (d : List (K × V)) : List K := d.map Prod.fst

/-- `d[k]` as a read: the value at the first (hence unique) occurrence of
`k`, or `none` (Python: `KeyError`). -/
def dget {K V : Type} [DecidableEq K] (k : K) (d : List (K × V)) : Option V :=
  (d.find? (fun kv => kv.1 = k)).map Prod.snd

/-- A Python dict built from a list of key-value pairs in iteration order
(the meaning of a dict comprehension). -/
def dictOf {K V : Type} [DecidableEq K] (l : List (K × V)) : List (K × V) :=
  l.foldl (fun d kv => dinsert kv.1 kv.2 d) []

/-- `chunks` (ModelGenerator.py lines 11-14): split an ordered mapping into
consecutive groups of `size` entries (the last group may be smaller).  The
dict is embedded as the ordered list of its entries.  Defined for
`1 ≤ size`; Python raises `ValueError` for step 0, and all claims restrict
to positive sizes. -/
def chunks {α : Type} (size : Nat) : List α → List (List α)
  | [] => []
  | a :: l => (a :: l.take (size - 1)) :: chunks size (l.drop (size - 1))
termination_by l => l.length
decreasing_by
  simp only [List.length_drop, List.length_cons]
  omega

theorem chunks_nil {α : Type} (size : Nat) : chunks size ([] : List α) = [] := by
  rw [chunks]

theorem chunks_join {α : Type} (size : Nat) (l : List α) :
    (chunks size l).flatten = l := by
  induction l using chunks.induct size with
  | case1 => rw [chunks_nil]; rfl
  | case2 a l ih =>
      rw [chunks]
      simp only [List.flatten_cons, ih, List.cons_append]
      rw [List.take_append_drop]

theorem chunks_length {α : Type} (size : Nat) (hs : 0 < size) (l : List α) :
    (chunks size l).length = (l.length + size - 1) / size := by
  induction l using chunks.induct size with
  | case1 =>
      simp only [chunks_nil, List.length_nil]
      rw [Nat.div_eq_of_lt (by omega)]
  | case2 a l ih =>
      rw [chunks]
      simp only [List.length_cons]
      rw [ih]
      simp only [List.length_drop]
      rcases le_or_lt (size - 1) l.length with h | h
      · have h1 : l.length - (size - 1) + size - 1 = l.length := by omega
        have h2 : l.length + 1 + size - 1 = l.length + size := by omega
        rw [h1, h2, Nat.add_div_right _ hs]
      · have h1 : l.length - (size - 1) + size - 1 = size - 1 := by omega
        have h2 : l.length + 1 + size - 1 = l.length + size := by omega
        rw [h1, h2, Nat.add_div_right _ hs,
          Nat.div_eq_of_lt (show size - 1 < size by omega),
          Nat.div_eq_of_lt (show l.length < size by omega)]

theorem chunks_size_le {α : Type} (size : Nat) (hs : 0 < size) (l : List α) :
    ∀ g ∈ chunks size l, g.length ≤ size := by
  induction l using chunks.induct size with
  | case1 => intro g hg; simp [chunks_nil] at hg
  | case2 a l ih =>
      intro g hg
      rw [chunks] at hg
      simp only [List.mem_cons] at hg
      rcases hg with rfl | hg
      · simp only [List.length_cons, List.length_take]
        omega
      · exact ih g hg

/-! ### Constants

Modelled from the spec: the names below come from
`model_generator/PMGBP/constants.py`, a file of this repository that is not
under `src/`.  Per the spec's glossary, `BULK` is "the single default
internal reaction set every compartment has", `MEMBRANE` the organelle
membrane reaction set, and `OUTER`/`INNER`/`TRANS` the periplasm membrane
reaction sets; the message kinds are reactant, product and information.
Only the distinctness of these strings matters to the generator. -/

/-- Modelled from the spec: the default internal reaction-set name. -/
def BULK : String := "bulk"

/-- Modelled from the spec: the organelle membrane reaction-set name. -/
def MEMBRANE : String := "membrane"

/-- Modelled from the spec: the periplasm outer-membrane reaction-set name. -/
def OUTER : String := "outer"

/-- Modelled from the spec: the periplasm inner-membrane reaction-set name. -/
def INNER : String := "inner"

/-- Modelled from the spec: the periplasm trans-membrane reaction-set name. -/
def TRANS : String := "trans"

/-- Modelled from the spec: the product message-kind tag. -/
def PRODUCT_MESSAGE_TYPE : String := "product_message"

/-- Modelled from the spec: the reactant message-kind tag. -/
def REACTANT_MESSAGE_TYPE : String := "reactant_message"

/-- Modelled from the spec: the information message-kind tag. -/
def INFORMATION_MESSAGE_TYPE : String := "information_message"

/-! ### Ordered-dict lemmas -/

theorem dkeys_nil {K V : Type} : dkeys ([] : List (K × V)) = [] := rfl

theorem dkeys_cons {K V : Type} (kv : K × V) (t : List (K × V)) :
    dkeys (kv :: t) = kv.1 :: dkeys t := rfl

theorem dkeys_append {K V : Type} (d e : List (K × V)) :
    dkeys (d ++ e) = dkeys d ++ dkeys e := List.map_append _ _ _

/-- Assignment of an absent key appends the pair at the end of the dict. -/
theorem dinsert_of_not_mem {K V : Type} [DecidableEq K] {k : K} (v : V) :
    ∀ {d : List (K × V)}, k ∉ dkeys d → dinsert k v d = d ++ [(k, v)] := by
  intro d
  induction d with
  | nil => intro _; rfl
  | cons kv t ih =>
      intro h
      simp only [dkeys_cons, List.mem_cons, not_or] at h
      obtain ⟨k', v'⟩ := kv
      rw [dinsert, if_neg (fun hh => h.1 hh.symm), ih h.2, List.cons_append]

/-- Building a dict from pairwise-distinct fresh keys appends them in
iteration order. -/
theorem foldl_dinsert_of_fresh {K V : Type} [DecidableEq K] :
    ∀ (l d : List (K × V)), (∀ kv ∈ l, kv.1 ∉ dkeys d) → (dkeys l).Nodup →
      l.foldl (fun d kv => dinsert kv.1 kv.2 d) d = d ++ l := by
  intro l
  induction l with
  | nil => intro d _ _; simp
  | cons kv t ih =>
      intro d hfresh hnd
      simp only [List.foldl_cons]
      rw [dinsert_of_not_mem _ (hfresh kv (List.mem_cons_self _ _))]
      rw [dkeys_cons] at hnd
      rw [ih (d ++ [kv])
        (by
          intro kv' hkv'
          simp only [dkeys_append, List.mem_append, dkeys_cons, dkeys_nil,
            List.mem_cons, List.not_mem_nil, or_false, not_or]
          exact ⟨hfresh kv' (List.mem_cons_of_mem _ hkv'),
            fun he => (List.nodup_cons.mp hnd).1 (he ▸ List.mem_map_of_mem Prod.fst hkv')⟩)
        (List.nodup_cons.mp hnd).2]
      simp

/-- A dict comprehension over pairwise-distinct keys is the pair list itself. -/
theorem dictOf_eq_self {K V : Type} [DecidableEq K] (l : List (K × V))
    (h : (dkeys l).Nodup) : dictOf l = l := by
  unfold dictOf
  rw [foldl_dinsert_of_fresh l [] (by intro kv _ hk; simp [dkeys_nil] at hk) h]
  simp

/-! ### ModelStructure (ModelGenerator.py lines 17-85) -/

/-- The structural fields of a `ModelStructure` instance that the generator
methods read.  The space parameters (volume, metabolites, interval time,
...) are opaque parser data never inspected by the coupling logic, so they
are not carried.  `enzyme_set_names` is the key list of `self.enzyme_sets`
(its values are parser data, likewise never inspected by the coupling
logic). -/
structure ModelStructure where
  id : String
  membrane_eic : List (String × Nat)
  routing_table : List ((String × String) × Nat)
  enzyme_set_names : List String
deriving DecidableEq, Repr

/-- The inner loop of lines 64-67: assign the next consecutive ports to the
reaction sets of one external compartment, threading the running
`port_number`. -/
def addSets (ecid : String) (acc : List ((String × String) × Nat) × Nat) :
    List String → List ((String × String) × Nat) × Nat
  | [] => acc
  | rs :: rest => addSets ecid (dinsert (ecid, rs) acc.2 acc.1, acc.2 + 1) rest

/-- The outer loop of lines 64-67 over `external_enzyme_sets.items()`. -/
def addExternals (acc : List ((String × String) × Nat) × Nat) :
    List (String × List String) → List ((String × String) × Nat) × Nat
  | [] => acc
  | (ecid, sets) :: rest => addExternals (addSets ecid acc sets) rest

/-- Key list of a Python dict filled by repeated assignment (lines 70-72):
first occurrence keeps its position, later assignments only replace the
value. -/
def pyDedup (l : List String) : List String :=
  l.foldl (fun acc k => if k ∈ acc then acc else acc ++ [k]) []

/-- `ModelStructure.__init__` (lines 19-85): membrane input-port mapping in
list order, then the routing table (bulk first, membranes next, external
reaction sets last with consecutive ports), then the enzyme-set dict keyed
by the internal reaction-set names. -/
def mkModelStructure (cid : String) (membranes : List String)
    (external_enzyme_sets : List (String × List String)) : ModelStructure :=
  let internal := BULK :: membranes
  let rt0 := dictOf ((internal.map (fun esn => (cid, esn))).zip
    (List.range internal.length))
  { id := cid
    membrane_eic := dictOf (membranes.zip (List.range membranes.length))
    routing_table := (addExternals (rt0, rt0.length) external_enzyme_sets).1
    enzyme_set_names := pyDedup internal }

/-- The `(supplier compartment, reaction-set name)` pairs of an
`external_enzyme_sets` argument, in supplier-iteration order. -/
def externalPairs (externals : List (String × List String)) :
    List (String × String) :=
  externals.flatMap (fun x => x.2.map (fun rs => (x.1, rs)))

theorem externalPairs_nil : externalPairs [] = [] := rfl

theorem externalPairs_cons (ecid : String) (sets : List String)
    (rest : List (String × List String)) :
    externalPairs ((ecid, sets) :: rest)
      = sets.map (fun rs => (ecid, rs)) ++ externalPairs rest := by
  simp [externalPairs]

/-- Closed form for `addSets` when the new keys are fresh and distinct. -/
theorem addSets_eq (ecid : String) :
    ∀ (sets : List String) (rt : List ((String × String) × Nat)) (p : Nat),
      (∀ rs ∈ sets, (ecid, rs) ∉ dkeys rt) → sets.Nodup →
      addSets ecid (rt, p) sets =
        (rt ++ (sets.map (fun rs => (ecid, rs))).zip (List.range' p sets.length),
         p + sets.length) := by
  intro sets
  induction sets with
  | nil => intro rt p _ _; simp [addSets]
  | cons rs rest ih =>
      intro rt p hfresh hnd
      simp only [addSets]
      rw [dinsert_of_not_mem _ (hfresh rs (List.mem_cons_self _ _))]
      rw [ih (rt ++ [((ecid, rs), p)]) (p + 1)
        (by
          intro rs' hrs'
          rw [dkeys_append]
          simp only [List.mem_append, dkeys_cons, dkeys_nil, List.mem_cons,
            List.not_mem_nil, or_false, not_or]
          refine ⟨hfresh rs' (List.mem_cons_of_mem _ hrs'), fun he => ?_⟩
          exact (List.nodup_cons.mp hnd).1 ((Prod.mk.injEq _ _ _ _ ▸ he).2 ▸ hrs'))
        (List.nodup_cons.mp hnd).2]
      simp only [List.length_cons, List.map_cons, Prod.mk.injEq]
      rw [List.range'_succ, List.zip_cons_cons]
      constructor
      · simp
      · omega

/-- Closed form for `addExternals` when all external pairs are fresh and
pairwise distinct. -/
theorem addExternals_eq :
    ∀ (externals : List (String × List String))
      (rt : List ((String × String) × Nat)) (p : Nat),
      (∀ pr ∈ externalPairs externals, pr ∉ dkeys rt) →
      (externalPairs externals).Nodup →
      addExternals (rt, p) externals =
        (rt ++ (externalPairs externals).zip
          (List.range' p (externalPairs externals).length),
         p + (externalPairs externals).length) := by
  intro externals
  induction externals with
  | nil => intro rt p _ _; simp [addExternals, externalPairs_nil]
  | cons x rest ih =>
      intro rt p hfresh hnd
      obtain ⟨ecid, sets⟩ := x
      rw [externalPairs_cons] at hfresh hnd
      simp only [addExternals]
      have hsetsnd : sets.Nodup := by
        have := hnd.of_append_left
        exact this.of_map
      rw [addSets_eq ecid sets rt p
        (fun rs hrs => hfresh _ (List.mem_append_left _ (List.mem_map_of_mem _ hrs)))
        hsetsnd]
      have hlen : (sets.map (fun rs => (ecid, rs))).length = sets.length := by simp
      rw [ih (rt ++ (sets.map (fun rs => (ecid, rs))).zip (List.range' p sets.length))
        (p + sets.length)
        (by
          intro pr hpr
          rw [dkeys_append]
          simp only [List.mem_append, not_or]
          have hdk : dkeys ((sets.map (fun rs => (ecid, rs))).zip
              (List.range' p sets.length)) = sets.map (fun rs => (ecid, rs)) := by
            unfold dkeys
            rw [List.map_fst_zip]
            simp [hlen]
          refine ⟨hfresh pr (List.mem_append_right _ hpr), ?_⟩
          rw [hdk]
          exact fun hmem => (List.disjoint_of_nodup_append hnd) hmem hpr
        )
        (hnd.of_append_right)]
      rw [externalPairs_cons, List.append_assoc]
      have hr : List.range' p (sets.length + (externalPairs rest).length)
          = List.range' p sets.length
            ++ List.range' (p + sets.length) (externalPairs rest).length := by
        have := List.range'_append p sets.length (externalPairs rest).length 1
        simp only [one_mul, Nat.add_comm (externalPairs rest).length sets.length] at this
        exact this.symm
      simp only [List.length_append, List.length_map, hlen]
      rw [hr, List.zip_append (by simp [hlen]), Prod.mk.injEq]
      constructor
      · rfl
      · omega

/-- C1: `ModelStructure.__init__` maps the i-th membrane to port i in
`membrane_eic`, and builds `routing_table` with port 0 for `(own id, BULK)`,
ports 1..|membranes| for the membranes in declared order, then consecutive
ports for the external `(supplier, reaction-set)` pairs in
supplier-iteration order; with distinct membrane names and distinct
external pairs the table has `1 + |membranes| + Σ` entries whose ports are
exactly `[0, N)` in order. -/
theorem claim_C1 (cid : String) (membranes : List String)
    (externals : List (String × List String))
    (hm : membranes.Nodup) (hb : BULK ∉ membranes)
    (hext : (externalPairs externals).Nodup)
    (hcid : ∀ pr ∈ externalPairs externals, pr.1 ≠ cid) :
    (mkModelStructure cid membranes externals).membrane_eic
        = membranes.zip (List.range membranes.length) ∧
    (mkModelStructure cid membranes externals).routing_table
        = ((BULK :: membranes).map (fun esn => (cid, esn))).zip
            (List.range (membranes.length + 1))
          ++ (externalPairs externals).zip
            (List.range' (membranes.length + 1) (externalPairs externals).length) ∧
    (mkModelStructure cid membranes externals).routing_table.length
        = 1 + membranes.length + (externalPairs externals).length ∧
    (mkModelStructure cid membranes externals).routing_table.map Prod.snd
        = List.range (mkModelStructure cid membranes externals).routing_table.length := by
  have hint : (BULK :: membranes).Nodup := List.nodup_cons.mpr ⟨hb, hm⟩
  have hkeys : (dkeys (((BULK :: membranes).map (fun esn => (cid, esn))).zip
      (List.range (BULK :: membranes).length))).Nodup := by
    unfold dkeys
    rw [List.map_fst_zip _ _ (by simp)]
    exact hint.map (fun a b hab => (Prod.mk.injEq _ _ _ _ ▸ hab).2)
  have hrt0 : dictOf (((BULK :: membranes).map (fun esn => (cid, esn))).zip
      (List.range (BULK :: membranes).length))
      = ((BULK :: membranes).map (fun esn => (cid, esn))).zip
        (List.range (BULK :: membranes).length) :=
    dictOf_eq_self _ hkeys
  have hmkeys : (dkeys (membranes.zip (List.range membranes.length))).Nodup := by
    unfold dkeys
    rw [List.map_fst_zip _ _ (by simp)]
    exact hm
  have hlen0 : (((BULK :: membranes).map (fun esn => (cid, esn))).zip
      (List.range (BULK :: membranes).length)).length = membranes.length + 1 := by
    simp
  have hfresh : ∀ pr ∈ externalPairs externals,
      pr ∉ dkeys (((BULK :: membranes).map (fun esn => (cid, esn))).zip
        (List.range (BULK :: membranes).length)) := by
    intro pr hpr
    unfold dkeys
    rw [List.map_fst_zip _ _ (by simp)]
    intro hmem
    obtain ⟨esn, _, he⟩ := List.mem_map.mp hmem
    exact hcid pr hpr (by rw [← he])
  have hrt : (mkModelStructure cid membranes externals).routing_table
      = ((BULK :: membranes).map (fun esn => (cid, esn))).zip
          (List.range (membranes.length + 1))
        ++ (externalPairs externals).zip
          (List.range' (membranes.length + 1) (externalPairs externals).length) := by
    show (addExternals (dictOf _, (dictOf _ : List ((String × String) × Nat)).length)
        externals).1 = _
    rw [hrt0, addExternals_eq externals _ _ hfresh hext, hlen0]
    simp
  refine ⟨?_, hrt, ?_, ?_⟩
  · show dictOf (membranes.zip (List.range membranes.length)) = _
    exact dictOf_eq_self _ hmkeys
  · rw [hrt]
    simp only [List.length_append, List.length_zip, List.length_map,
      List.length_cons, List.length_range, List.length_range', Nat.min_self]
    omega
  · rw [hrt]
    simp only [List.map_append, List.length_append, List.length_zip,
      List.length_map, List.length_cons, List.length_range, List.length_range',
      Nat.min_self]
    rw [List.map_snd_zip _ _ (by simp), List.map_snd_zip _ _ (by simp)]
    have h1 : List.range (membranes.length + 1) = List.range' 0 (membranes.length + 1) :=
      List.range_eq_range' _
    have h2 := List.range'_append 0 (membranes.length + 1)
      (externalPairs externals).length 1
    simp only [one_mul, Nat.zero_add] at h2
    rw [h1, h2, ← List.range_eq_range']
    congr 1
    omega

/-- C1 witness: the spec's concrete scenario, a compartment `p` with
membranes `[OUTER, INNER, TRANS]` and no external sets. -/
theorem claim_C1_witness :
    (mkModelStructure "p" [OUTER, INNER, TRANS] []).membrane_eic
        = [(OUTER, 0), (INNER, 1), (TRANS, 2)] ∧
    (mkModelStructure "p" [OUTER, INNER, TRANS] []).routing_table
        = [(("p", BULK), 0), (("p", OUTER), 1), (("p", INNER), 2), (("p", TRANS), 3)] := by
  have h := claim_C1 "p" [OUTER, INNER, TRANS] []
    (by decide) (by decide) (by decide) (by intro pr hpr; simp [externalPairs] at hpr)
  exact ⟨h.1.trans (by decide), h.2.1.trans (by decide)⟩

/-- C2: for every ordered mapping (embedded as the ordered list of its
entries) and positive `size`, `chunks` yields `⌈|data| / size⌉` groups of at
most `size` entries each, concatenating the groups in yield order
reproduces the original entry order (hence the groups partition the
mapping: with distinct keys the groups are pairwise disjoint), and an empty
mapping yields zero groups. -/
theorem claim_C2 {α : Type} (l : List α) (size : Nat) (hs : 0 < size) :
    (chunks size l).length = (l.length + size - 1) / size ∧
    (∀ g ∈ chunks size l, g.length ≤ size) ∧
    (chunks size l).flatten = l ∧
    (l.Nodup → (chunks size l).Pairwise List.Disjoint) ∧
    chunks size ([] : List α) = [] := by
  refine ⟨chunks_length size hs l, chunks_size_le size hs l, chunks_join size l,
    fun hnd => ?_, chunks_nil size⟩
  have : (chunks size l).flatten.Nodup := by rw [chunks_join]; exact hnd
  exact (List.nodup_flatten.mp this).2

/-- C2 witness: five entries chunked in groups of two give groups
`[0,1] [2,3] [4]`. -/
theorem claim_C2_witness :
    (chunks 2 [0, 1, 2, 3, 4]).length = (5 + 2 - 1) / 2 ∧
    (chunks 2 [0, 1, 2, 3, 4]).flatten = [0, 1, 2, 3, 4] ∧
    chunks 2 [0, 1, 2, 3, 4] = [[0, 1], [2, 3], [4]] := by
  have h := claim_C2 [0, 1, 2, 3, 4] 2 (by decide)
  exact ⟨h.1, h.2.2.1, by simp [chunks]⟩

/-! ### generate_enzyme_set (ModelGenerator.py lines 171-197) -/

/-- The data `generate_enzyme_set` accumulates over the groups before
handing it to the external Parameter Writer and Code Emitter: the group
key lists, the per-reaction-set router (enzyme id → group port), the
per-group routers (enzyme id → intra-group port), and the running port
counter.  Enzyme sets are embedded as their ordered key lists: the dict
values are parser data the routine never reads. -/
structure ESAcc where
  groups_enzyme_ids : List (List String)
  routing_table : List (String × Nat)
  group_routers : List (String × List (String × Nat))
  port : Nat
deriving DecidableEq, Repr

/-- One iteration of the `for group in groups` loop (lines 183-193). -/
def esStep (cid esn : String) (acc : ESAcc) (group : List String) : ESAcc :=
  { groups_enzyme_ids := acc.groups_enzyme_ids ++ [group]
    routing_table := group.foldl (fun rt eid => dinsert eid acc.port rt) acc.routing_table
    group_routers := acc.group_routers ++
      [(String.intercalate "_" [cid, esn, toString acc.port],
        dictOf (group.zip (List.range group.length)))]
    port := acc.port + 1 }

/-- `generate_enzyme_set` (lines 171-197): chunk the enzyme set and run the
group loop.  The source contains no assert or raise on this path: the
function is total and returns whatever group count `chunks` produced. -/
def generateEnzymeSet (cid esn : String) (size : Nat) (enzyme_set : List String) :
    ESAcc :=
  (chunks size enzyme_set).foldl (esStep cid esn) ⟨[], [], [], 0⟩

theorem esAcc_groups_foldl (cid esn : String) :
    ∀ (gs : List (List String)) (acc : ESAcc),
      (gs.foldl (esStep cid esn) acc).groups_enzyme_ids
        = acc.groups_enzyme_ids ++ gs := by
  intro gs
  induction gs with
  | nil => intro acc; simp
  | cons g t ih =>
      intro acc
      simp only [List.foldl_cons, ih, esStep]
      simp

/-- The group-id list of `generate_enzyme_set` is exactly the chunk list. -/
theorem generateEnzymeSet_groups (cid esn : String) (size : Nat)
    (enzyme_set : List String) :
    (generateEnzymeSet cid esn size enzyme_set).groups_enzyme_ids
      = chunks size enzyme_set := by
  unfold generateEnzymeSet
  rw [esAcc_groups_foldl]
  rfl

/-- C3 counterexample: with `groups_size = 1` an enzyme set of two enzymes
exceeds `groups_size² = 1`, yet `generate_enzyme_set` raises no error: it
returns an ordinary result with two groups. -/
theorem claim_C3_counterexample :
    1 * 1 < (["e1", "e2"] : List String).length ∧
    (generateEnzymeSet "c" "b" 1 ["e1", "e2"]).groups_enzyme_ids
      = [["e1"], ["e2"]] := by
  refine ⟨by decide, ?_⟩
  rw [generateEnzymeSet_groups]
  simp [chunks]

/-- C3 (amended): `generate_enzyme_set` raises no error when the enzyme set
exceeds `groups_size × groups_size` enzymes; it silently returns
`⌈n / groups_size⌉` groups, a group count strictly exceeding `groups_size`,
so the ceiling is not surfaced to the caller. -/
theorem claim_C3_amended (cid esn : String) (size : Nat) (hs : 0 < size)
    (enzyme_set : List String) (h : size * size < enzyme_set.length) :
    (generateEnzymeSet cid esn size enzyme_set).groups_enzyme_ids.length
      = (enzyme_set.length + size - 1) / size ∧
    size < (generateEnzymeSet cid esn size enzyme_set).groups_enzyme_ids.length := by
  rw [generateEnzymeSet_groups, chunks_length size hs]
  refine ⟨rfl, ?_⟩
  rw [Nat.lt_iff_add_one_le, Nat.le_div_iff_mul_le hs]
  have h1 : (size + 1) * size = size * size + size := by ring
  omega

/-- C3 amended-claim witness: two enzymes with `groups_size = 1`. -/
theorem claim_C3_amended_witness :
    (generateEnzymeSet "c" "b" 1 ["e1", "e2"]).groups_enzyme_ids.length = 2 ∧
    1 < (generateEnzymeSet "c" "b" 1 ["e1", "e2"]).groups_enzyme_ids.length := by
  have h := claim_C3_amended "c" "b" 1 (by decide) ["e1", "e2"] (by decide)
  exact ⟨h.1.trans (by norm_num), h.2⟩

/-! ### Coupled-model descriptors

The external Code Emitter (`ModelCodeWriter`) only renders what the
generator hands it, so `write_coupled_model` is embedded as the identity on
its argument tuple: a `CoupledModel` record.  The triple returned by the
emitter's `write_enzyme_set` — `(model name, _, output port amount)`, whose
middle component the generator never reads — is the `EnzymeSetModel`
record, supplied as a function argument wherever the source calls the
emitter. -/

/-- The coder's triple for one generated enzyme-set model: its name, an
unread middle component, and its output-port amount. -/
structure EnzymeSetModel where
  name : String
  info : Nat
  output_port_amount : Nat
deriving DecidableEq, Repr

/-- A compartment-level port declaration `(port, message kind, direction)`. -/
structure PortDecl where
  port : Port
  message_type : String
  direction : String
deriving DecidableEq, Repr

/-- An EIC or EOC entry `(model, namespace, inner port, outer port)`. -/
structure CLink where
  model : String
  ns : String
  p1 : Port
  p2 : Port
deriving DecidableEq, Repr

/-- An IC entry: the source emits both 6-tuples (with model namespaces) and,
in `generate_top`, one 4-tuple form. -/
inductive ICEdge where
  | full (sm sns : String) (sp : Port) (dm dns : String) (dp : Port)
  | short (sm : String) (sp : Port) (dm : String) (dp : Port)
deriving DecidableEq, Repr

/-- The argument tuple of `write_coupled_model`
`(id, sub_models, ports, EIC, EOC, IC)`. -/
structure CoupledModel where
  cid : String
  sub_models : List String
  ports : List PortDecl
  eic : List CLink
  eoc : List CLink
  ic : List ICEdge
deriving DecidableEq, Repr

/-- The C++ namespace string `'pmgbp::structs::'+space+'::'+space`. -/
def spaceNS (space : String) : String :=
  "pmgbp::structs::" ++ space ++ "::" ++ space

/-- The C++ namespace string `'pmgbp::models::enzyme'`. -/
def enzymeNS : String := "pmgbp::models::enzyme"

/-- `generate_enzyme_sets` (lines 166-169): the dict comprehension keying
each generated enzyme-set model by `(compartment id, reaction-set name)`.
`models` stands for the coder triple `generate_enzyme_set` returns per
reaction-set name. -/
def generateEnzymeSets (ms : ModelStructure) (models : String → EnzymeSetModel) :
    List ((String × String) × EnzymeSetModel) :=
  dictOf (ms.enzyme_set_names.map (fun esn => ((ms.id, esn), models esn)))

/-- `generate_bulk_compartment` (lines 264-314).  `space` is the name the
coder returns for the space atomic model.  The `assert len(enzyme_sets) == 1`
is the first possible failure; then the `(cid, BULK)` dict reads can raise
`KeyError` and `max` of an empty routing table `ValueError` (the computed
maximum only feeds the external space-model writer). -/
def generateBulkCompartment (space : String) (ms : ModelStructure)
    (models : String → EnzymeSetModel) : Except GenError CoupledModel :=
  let es := generateEnzymeSets ms models
  if es.length = 1 then
    match dget (ms.id, BULK) es with
    | none => Except.error GenError.keyError
    | some bulkm =>
        match (ms.routing_table.map Prod.snd).max? with
        | none => Except.error GenError.valueError
        | some _ =>
            match dget (ms.id, BULK) ms.routing_table with
            | none => Except.error GenError.keyError
            | some bulk_port =>
                Except.ok
                  { cid := ms.id
                    sub_models := [space, bulkm.name]
                    ports :=
                      [⟨Port.str "0_product", PRODUCT_MESSAGE_TYPE, "in"⟩,
                       ⟨Port.str "0_information", INFORMATION_MESSAGE_TYPE, "in"⟩]
                      ++ ms.routing_table.flatMap (fun kv =>
                          if kv.1.1 ≠ ms.id then
                            [⟨Port.num kv.2, REACTANT_MESSAGE_TYPE, "out"⟩]
                          else [])
                    eic :=
                      [⟨space, spaceNS space, Port.str "0_product", Port.str "0_product"⟩,
                       ⟨space, spaceNS space, Port.str "0_information",
                        Port.str "0_information"⟩]
                    eoc := ms.routing_table.flatMap (fun kv =>
                        if kv.1.1 ≠ ms.id then
                          [⟨space, spaceNS space, Port.num kv.2, Port.num kv.2⟩]
                        else [])
                    ic :=
                      [ICEdge.full space (spaceNS space) (Port.num bulk_port)
                        bulkm.name enzymeNS (Port.num 0),
                       ICEdge.full bulkm.name enzymeNS (Port.str "0_product")
                        space (spaceNS space) (Port.str "0_product"),
                       ICEdge.full bulkm.name enzymeNS (Port.str "0_information")
                        space (spaceNS space) (Port.str "0_information")] }
  else Except.error GenError.assertionError

/-! ### Dict-read and key-membership lemmas -/

theorem dget_cons {K V : Type} [DecidableEq K] (k : K) (kv : K × V) (t : List (K × V)) :
    dget k (kv :: t) = if kv.1 = k then some kv.2 else dget k t := by
  simp only [dget, List.find?]
  by_cases h : kv.1 = k <;> simp [h]

theorem dget_isSome_of_mem {K V : Type} [DecidableEq K] {k : K} :
    ∀ {d : List (K × V)}, k ∈ dkeys d → (dget k d).isSome := by
  intro d
  induction d with
  | nil => intro h; simp [dkeys_nil] at h
  | cons kv t ih =>
      intro h
      rw [dget_cons]
      by_cases hk : kv.1 = k
      · simp [hk]
      · rw [if_neg hk]
        rw [dkeys_cons, List.mem_cons] at h
        exact ih (h.resolve_left (fun he => hk he.symm))

theorem dkeys_dinsert {K V : Type} [DecidableEq K] (k' : K) (v : V) :
    ∀ (d : List (K × V)),
      dkeys (dinsert k' v d) = if k' ∈ dkeys d then dkeys d else dkeys d ++ [k'] := by
  intro d
  induction d with
  | nil => simp [dinsert, dkeys]
  | cons kv t ih =>
      by_cases hk : kv.1 = k'
      · simp [dinsert, hk, dkeys_cons]
      · simp only [dinsert, if_neg hk, dkeys_cons, ih, List.mem_cons]
        by_cases hm : k' ∈ dkeys t
        · simp [hm]
        · simp only [hm, if_false, or_false]
          rw [if_neg (fun he => hk he.symm)]
          simp

theorem mem_dkeys_dinsert_of_mem {K V : Type} [DecidableEq K] {k k' : K} (v : V)
    {d : List (K × V)} (h : k ∈ dkeys d) : k ∈ dkeys (dinsert k' v d) := by
  rw [dkeys_dinsert]
  by_cases hm : k' ∈ dkeys d <;> simp [hm, h]

theorem mem_dkeys_foldl_dinsert {K V : Type} [DecidableEq K] :
    ∀ (l : List (K × V)) (d : List (K × V)) (k : K),
      k ∈ dkeys d ∨ k ∈ dkeys l →
      k ∈ dkeys (l.foldl (fun d kv => dinsert kv.1 kv.2 d) d) := by
  intro l
  induction l with
  | nil => intro d k h; simpa [dkeys_nil] using h
  | cons kv t ih =>
      intro d k h
      simp only [List.foldl_cons]
      rcases h with h | h
      · exact ih _ _ (Or.inl (mem_dkeys_dinsert_of_mem _ h))
      · rw [dkeys_cons, List.mem_cons] at h
        rcases h with rfl | h
        · refine ih _ _ (Or.inl ?_)
          rw [dkeys_dinsert]
          by_cases hm : kv.1 ∈ dkeys d <;> simp [hm]
        · exact ih _ _ (Or.inr h)

theorem mem_dkeys_dictOf {K V : Type} [DecidableEq K] {k : K} {l : List (K × V)}
    (h : k ∈ dkeys l) : k ∈ dkeys (dictOf l) :=
  mem_dkeys_foldl_dinsert l [] k (Or.inr h)

theorem mem_dkeys_addSets (ecid : String) :
    ∀ (sets : List String) (acc : List ((String × String) × Nat) × Nat)
      (k : String × String), k ∈ dkeys acc.1 → k ∈ dkeys (addSets ecid acc sets).1 := by
  intro sets
  induction sets with
  | nil => intro acc k h; exact h
  | cons rs rest ih =>
      intro acc k h
      exact ih _ k (mem_dkeys_dinsert_of_mem _ h)

theorem mem_dkeys_addExternals :
    ∀ (externals : List (String × List String))
      (acc : List ((String × String) × Nat) × Nat) (k : String × String),
      k ∈ dkeys acc.1 → k ∈ dkeys (addExternals acc externals).1 := by
  intro externals
  induction externals with
  | nil => intro acc k h; exact h
  | cons x rest ih =>
      obtain ⟨ecid, sets⟩ := x
      intro acc k h
      exact ih _ k (mem_dkeys_addSets ecid sets acc k h)

/-- The `(own id, BULK)` key is always present in a freshly built routing
table. -/
theorem mkms_bulk_key (cid : String) (membranes : List String)
    (externals : List (String × List String)) :
    (cid, BULK) ∈ dkeys (mkModelStructure cid membranes externals).routing_table := by
  show (cid, BULK) ∈ dkeys (addExternals _ externals).1
  apply mem_dkeys_addExternals
  apply mem_dkeys_dictOf
  unfold dkeys
  rw [List.map_fst_zip _ _ (by simp)]
  exact List.mem_map_of_mem _ (List.mem_cons_self _ _)

theorem pyDedup_aux :
    ∀ (l acc : List String), acc.Nodup →
      ∃ t, l.foldl (fun acc k => if k ∈ acc then acc else acc ++ [k]) acc = acc ++ t ∧
        (acc ++ t).Nodup := by
  intro l
  induction l with
  | nil => intro acc h; exact ⟨[], by simp, by simpa using h⟩
  | cons k rest ih =>
      intro acc h
      simp only [List.foldl_cons]
      by_cases hk : k ∈ acc
      · rw [if_pos hk]; exact ih acc h
      · rw [if_neg hk]
        obtain ⟨t, ht, hnd⟩ := ih (acc ++ [k])
          ((List.nodup_append.mpr ⟨h, List.nodup_singleton k,
            by intro a ha hb; simp at hb; exact hk (hb ▸ ha)⟩))
        exact ⟨k :: t, by simpa using ht, by simpa using hnd⟩

/-- The enzyme-set dict of a freshly built compartment is keyed
`BULK :: t` with pairwise-distinct names. -/
theorem mkms_names (cid : String) (membranes : List String)
    (externals : List (String × List String)) :
    ∃ t, (mkModelStructure cid membranes externals).enzyme_set_names = BULK :: t ∧
      (BULK :: t).Nodup := by
  show ∃ t, pyDedup (BULK :: membranes) = BULK :: t ∧ (BULK :: t).Nodup
  unfold pyDedup
  simp only [List.foldl_cons, List.not_mem_nil, if_false, List.nil_append]
  obtain ⟨t, ht, hnd⟩ := pyDedup_aux membranes [BULK] (List.nodup_singleton _)
  exact ⟨t, by simpa using ht, by simpa using hnd⟩

/-- Closed form of `generate_enzyme_sets` when the name list is
duplicate-free (always true for a fresh compartment). -/
theorem generateEnzymeSets_eq (ms : ModelStructure) (models : String → EnzymeSetModel)
    (h : ms.enzyme_set_names.Nodup) :
    generateEnzymeSets ms models
      = ms.enzyme_set_names.map (fun esn => ((ms.id, esn), models esn)) := by
  unfold generateEnzymeSets
  apply dictOf_eq_self
  unfold dkeys
  rw [List.map_map]
  exact h.map (fun a b hab => by
    have := congrArg Prod.snd hab
    simpa using this)

/-- C4: `generate_bulk_compartment` asserts that the compartment resolves
to exactly one internal reaction-set model: with exactly one entry in the
generated enzyme-sets mapping the check passes and a descriptor is
produced; with any other entry count it fails fast with the assertion
error and produces no descriptor. -/
theorem claim_C4 (space cid : String) (membranes : List String)
    (externals : List (String × List String)) (models : String → EnzymeSetModel) :
    ((generateEnzymeSets (mkModelStructure cid membranes externals) models).length = 1 →
      ∃ d, generateBulkCompartment space (mkModelStructure cid membranes externals) models
        = Except.ok d) ∧
    ((generateEnzymeSets (mkModelStructure cid membranes externals) models).length ≠ 1 →
      generateBulkCompartment space (mkModelStructure cid membranes externals) models
        = Except.error GenError.assertionError) := by
  constructor
  · intro h1
    obtain ⟨t, hnames, hnd⟩ := mkms_names cid membranes externals
    have hes : generateEnzymeSets (mkModelStructure cid membranes externals) models
        = ((cid, BULK), models BULK)
          :: t.map (fun esn => ((cid, esn), models esn)) := by
      rw [generateEnzymeSets_eq _ models (hnames ▸ hnd), hnames]
      simp [mkModelStructure]
    have hdget_es : dget (cid, BULK)
        (generateEnzymeSets (mkModelStructure cid membranes externals) models)
        = some (models BULK) := by
      rw [hes, dget_cons]
      simp
    have hbk := mkms_bulk_key cid membranes externals
    have hmax : ((mkModelStructure cid membranes externals).routing_table.map
        Prod.snd).max?.isSome := by
      cases hm : ((mkModelStructure cid membranes externals).routing_table.map
          Prod.snd).max? with
      | none =>
          have h0 := List.max?_eq_none_iff.mp hm
          have hrt0 : (mkModelStructure cid membranes externals).routing_table = [] := by
            simpa using h0
          rw [hrt0] at hbk
          simp [dkeys_nil] at hbk
      | some m => rfl
    have hrtget : (dget (cid, BULK)
        (mkModelStructure cid membranes externals).routing_table).isSome :=
      dget_isSome_of_mem hbk
    obtain ⟨mx, hmx⟩ := Option.isSome_iff_exists.mp hmax
    obtain ⟨bp, hbp⟩ := Option.isSome_iff_exists.mp hrtget
    simp only [generateBulkCompartment]
    rw [if_pos h1]
    have hid : (mkModelStructure cid membranes externals).id = cid := rfl
    rw [hid, hdget_es, hmx, hbp]
    exact ⟨_, rfl⟩
  · intro h1
    simp only [generateBulkCompartment]
    rw [if_neg h1]

/-- A fixed stand-in for the external coder's enzyme-set triples, used by
the concrete witnesses. -/
def modelsW : String → EnzymeSetModel := fun esn => ⟨esn ++ "_m", 0, 2⟩

/-- C4 witness: a membrane-free compartment passes the assertion and yields
a descriptor; a compartment with a membrane (two internal reaction sets)
trips the assertion. -/
theorem claim_C4_witness :
    (generateEnzymeSets (mkModelStructure "c" [] []) modelsW).length = 1 ∧
    (∃ d, generateBulkCompartment "s" (mkModelStructure "c" [] []) modelsW
      = Except.ok d) ∧
    (generateEnzymeSets (mkModelStructure "c" [OUTER] []) modelsW).length ≠ 1 ∧
    generateBulkCompartment "s" (mkModelStructure "c" [OUTER] []) modelsW
      = Except.error GenError.assertionError :=
  ⟨by decide, (claim_C4 "s" "c" [] [] modelsW).1 (by decide), by decide,
    (claim_C4 "s" "c" [OUTER] [] modelsW).2 (by decide)⟩

/-! ### generate_organelle_compartment (ModelGenerator.py lines 199-260) -/

/-- The IC loop of lines 217-227: for each routing-table entry, assert the
address belongs to the compartment itself, read the enzyme-set model, and
append three coupling edges (space → reaction set through the routed port,
and the reaction set's `0_product`/`0_information` back to the space). -/
def orgICLoop (space ms_id : String) (es : List ((String × String) × EnzymeSetModel)) :
    List ((String × String) × Nat) → Except GenError (List ICEdge)
  | [] => Except.ok []
  | (addr, port) :: rest =>
      if addr.1 = ms_id then
        match dget addr es with
        | some m =>
            match orgICLoop space ms_id es rest with
            | Except.ok tl => Except.ok
                ([ICEdge.full space (spaceNS space) (Port.num port)
                    m.name enzymeNS (Port.num 0),
                  ICEdge.full m.name enzymeNS (Port.str "0_product")
                    space (spaceNS space) (Port.str "0_product"),
                  ICEdge.full m.name enzymeNS (Port.str "0_information")
                    space (spaceNS space) (Port.str "0_information")] ++ tl)
            | Except.error e => Except.error e
        | none => Except.error GenError.keyError
      else Except.error GenError.assertionError

/-- The EOC edge `(name, enzyme ns, "k_product", "k_product")`. -/
def prodLink (name : String) (k : Nat) : CLink :=
  ⟨name, enzymeNS, Port.str (toString k ++ "_product"),
    Port.str (toString k ++ "_product")⟩

/-- The EOC edge `(name, enzyme ns, "k_information", "k_information")`. -/
def infoLink (name : String) (k : Nat) : CLink :=
  ⟨name, enzymeNS, Port.str (toString k ++ "_information"),
    Port.str (toString k ++ "_information")⟩

/-- The output-port declaration `("k_product", product kind, out)`. -/
def prodDecl (k : Nat) : PortDecl :=
  ⟨Port.str (toString k ++ "_product"), PRODUCT_MESSAGE_TYPE, "out"⟩

/-- The output-port declaration `("k_information", information kind, out)`. -/
def infoDecl (k : Nat) : PortDecl :=
  ⟨Port.str (toString k ++ "_information"), INFORMATION_MESSAGE_TYPE, "out"⟩

/-- Accumulator of the EOC loop of lines 234-244. -/
structure EOCAcc where
  out_port_numbers : List Nat
  out_ports : List PortDecl
  eoc : List CLink
deriving DecidableEq, Repr

/-- One iteration of the inner `for port_number in range(1, N)` loop
(lines 238-244): always append the two EOC edges; declare the
compartment-level ports only for a port number not seen before. -/
def eocPortStep (name : String) (acc : EOCAcc) (k : Nat) : EOCAcc :=
  let eoc' := acc.eoc ++ [prodLink name k, infoLink name k]
  if k ∈ acc.out_port_numbers then
    { acc with eoc := eoc' }
  else
    { out_port_numbers := acc.out_port_numbers ++ [k]
      out_ports := acc.out_ports ++ [prodDecl k, infoDecl k]
      eoc := eoc' }

/-- One iteration of the outer loop over `enzyme_sets.values()`
(line 237). -/
def eocModelStep (acc : EOCAcc) (m : EnzymeSetModel) : EOCAcc :=
  (List.range' 1 (m.output_port_amount - 1)).foldl (eocPortStep m.name) acc

/-- The whole EOC/output-port loop of lines 234-244. -/
def orgEOC (es : List EnzymeSetModel) : EOCAcc :=
  es.foldl eocModelStep ⟨[], [], []⟩

/-- The EIC loop of lines 246-253: wire each membrane's model input port 0
to the compartment-level port from `membrane_eic`, declaring one
reactant-typed input port per membrane. -/
def orgEICLoop (ms_id : String) (es : List ((String × String) × EnzymeSetModel)) :
    List (String × Nat) → Except GenError (List CLink × List PortDecl)
  | [] => Except.ok ([], [])
  | (es_name, port) :: rest =>
      match dget (ms_id, es_name) es with
      | some m =>
          match orgEICLoop ms_id es rest with
          | Except.ok (eic, inp) => Except.ok
              (⟨m.name, enzymeNS, Port.num 0, Port.num port⟩ :: eic,
               ⟨Port.num port, REACTANT_MESSAGE_TYPE, "in"⟩ :: inp)
          | Except.error e => Except.error e
      | none => Except.error GenError.keyError

/-- `generate_organelle_compartment` (lines 199-260): one sub-model per
reaction set plus the space, the IC from the routing table, the EOC and
output ports from the reaction sets' output-port ranges, the EIC from
`membrane_eic`, assembled as `write_coupled_model(id, sub_models,
out_ports + in_ports, eic, eoc, ic)`. -/
def generateOrganelleCompartment (space : String) (ms : ModelStructure)
    (models : String → EnzymeSetModel) : Except GenError CoupledModel :=
  let es := generateEnzymeSets ms models
  match orgICLoop space ms.id es ms.routing_table with
  | Except.error e => Except.error e
  | Except.ok ic =>
      let acc := orgEOC (es.map Prod.snd)
      match orgEICLoop ms.id es ms.membrane_eic with
      | Except.error e => Except.error e
      | Except.ok (eic, in_ports) => Except.ok
          { cid := ms.id
            sub_models := space :: es.map (fun kv => kv.2.name)
            ports := acc.out_ports ++ in_ports
            eic := eic
            eoc := acc.eoc
            ic := ic }

/-- The three IC edges one routing-table entry contributes when its
enzyme-set lookup succeeds (lines 222-227). -/
def icEdgesOf (space _ms_id : String) (es : List ((String × String) × EnzymeSetModel))
    (e : (String × String) × Nat) : List ICEdge :=
  match dget e.1 es with
  | some m =>
      [ICEdge.full space (spaceNS space) (Port.num e.2) m.name enzymeNS (Port.num 0),
       ICEdge.full m.name enzymeNS (Port.str "0_product")
         space (spaceNS space) (Port.str "0_product"),
       ICEdge.full m.name enzymeNS (Port.str "0_information")
         space (spaceNS space) (Port.str "0_information")]
  | none => []

theorem orgICLoop_ok (space ms_id : String)
    (es : List ((String × String) × EnzymeSetModel)) :
    ∀ (rt : List ((String × String) × Nat)),
      (∀ e ∈ rt, e.1.1 = ms_id ∧ (dget e.1 es).isSome) →
      orgICLoop space ms_id es rt = Except.ok (rt.flatMap (icEdgesOf space ms_id es)) := by
  intro rt
  induction rt with
  | nil => intro _; rfl
  | cons e rest ih =>
      intro h
      obtain ⟨addr, port⟩ := e
      have he := h _ (List.mem_cons_self _ _)
      obtain ⟨m, hm⟩ := Option.isSome_iff_exists.mp he.2
      rw [orgICLoop, if_pos he.1, hm, ih (fun e' he' => h e' (List.mem_cons_of_mem _ he'))]
      simp [icEdgesOf, hm]

theorem orgICLoop_assert (space ms_id : String)
    (es : List ((String × String) × EnzymeSetModel)) :
    ∀ (pre : List ((String × String) × Nat)) (addr : String × String) (port : Nat)
      (post : List ((String × String) × Nat)),
      addr.1 ≠ ms_id →
      (∀ e ∈ pre, e.1.1 = ms_id ∧ (dget e.1 es).isSome) →
      orgICLoop space ms_id es (pre ++ (addr, port) :: post)
        = Except.error GenError.assertionError := by
  intro pre
  induction pre with
  | nil =>
      intro addr port post haddr _
      rw [List.nil_append, orgICLoop, if_neg haddr]
  | cons e rest ih =>
      intro addr port post haddr h
      obtain ⟨addr', port'⟩ := e
      have he := h _ (List.mem_cons_self _ _)
      obtain ⟨m, hm⟩ := Option.isSome_iff_exists.mp he.2
      rw [List.cons_append, orgICLoop, if_pos he.1, hm,
        ih addr port post haddr (fun e' he' => h e' (List.mem_cons_of_mem _ he'))]

theorem orgEICLoop_ok (ms_id : String)
    (es : List ((String × String) × EnzymeSetModel)) :
    ∀ (meic : List (String × Nat)),
      (∀ e ∈ meic, (dget (ms_id, e.1) es).isSome) →
      ∃ pr, orgEICLoop ms_id es meic = Except.ok pr := by
  intro meic
  induction meic with
  | nil => intro _; exact ⟨_, rfl⟩
  | cons e rest ih =>
      intro h
      obtain ⟨es_name, port⟩ := e
      obtain ⟨m, hm⟩ := Option.isSome_iff_exists.mp (h _ (List.mem_cons_self _ _))
      obtain ⟨pr, hpr⟩ := ih (fun e' he' => h e' (List.mem_cons_of_mem _ he'))
      rw [orgEICLoop, hm, hpr]
      exact ⟨_, rfl⟩

/-- C5: `generate_organelle_compartment` fails fast with the assertion
error at the first routing-table entry addressing a foreign compartment;
when every routing-table key carries the compartment's own id (and its
reaction sets resolve, as they always do for a freshly built compartment),
the assertion is unreachable and the internal coupling holds the three
edges of every routing-table entry, in table order. -/
theorem claim_C5 (space : String) (ms : ModelStructure)
    (models : String → EnzymeSetModel) :
    ((∀ e ∈ ms.routing_table, e.1.1 = ms.id ∧
        (dget e.1 (generateEnzymeSets ms models)).isSome) →
      (∀ e ∈ ms.membrane_eic, (dget (ms.id, e.1) (generateEnzymeSets ms models)).isSome) →
      ∃ d, generateOrganelleCompartment space ms models = Except.ok d ∧
        d.ic = ms.routing_table.flatMap
          (icEdgesOf space ms.id (generateEnzymeSets ms models)) ∧
        ∀ e ∈ ms.routing_table,
          (icEdgesOf space ms.id (generateEnzymeSets ms models) e).length = 3) ∧
    (∀ (pre : List ((String × String) × Nat)) (addr : String × String) (port : Nat)
        (post : List ((String × String) × Nat)),
      ms.routing_table = pre ++ (addr, port) :: post →
      addr.1 ≠ ms.id →
      (∀ e ∈ pre, e.1.1 = ms.id ∧ (dget e.1 (generateEnzymeSets ms models)).isSome) →
      generateOrganelleCompartment space ms models
        = Except.error GenError.assertionError) := by
  constructor
  · intro hrt hmeic
    obtain ⟨pr, hpr⟩ := orgEICLoop_ok ms.id (generateEnzymeSets ms models)
      ms.membrane_eic hmeic
    simp only [generateOrganelleCompartment]
    rw [orgICLoop_ok space ms.id _ ms.routing_table hrt, hpr]
    refine ⟨_, rfl, rfl, ?_⟩
    intro e he
    obtain ⟨m, hm⟩ := Option.isSome_iff_exists.mp (hrt e he).2
    simp [icEdgesOf, hm]
  · intro pre addr port post hsplit haddr hpre
    simp only [generateOrganelleCompartment]
    rw [hsplit, orgICLoop_assert space ms.id _ pre addr port post haddr hpre]

/-- C5 witness: a fresh organelle compartment (own-id routing table)
assembles successfully with three IC edges per routing entry; a routing
table whose second entry addresses compartment `x ≠ o` trips the
assertion. -/
theorem claim_C5_witness :
    (∃ d, generateOrganelleCompartment "s" (mkModelStructure "o" [MEMBRANE] []) modelsW
        = Except.ok d ∧
      d.ic = (mkModelStructure "o" [MEMBRANE] []).routing_table.flatMap
        (icEdgesOf "s" "o"
          (generateEnzymeSets (mkModelStructure "o" [MEMBRANE] []) modelsW)) ∧
      ∀ e ∈ (mkModelStructure "o" [MEMBRANE] []).routing_table,
        (icEdgesOf "s" "o"
          (generateEnzymeSets (mkModelStructure "o" [MEMBRANE] []) modelsW) e).length = 3) ∧
    generateOrganelleCompartment "s" (mkModelStructure "o" [] [("x", [MEMBRANE])]) modelsW
      = Except.error GenError.assertionError := by
  constructor
  · exact (claim_C5 "s" (mkModelStructure "o" [MEMBRANE] []) modelsW).1
      (by decide) (by decide)
  · exact (claim_C5 "s" (mkModelStructure "o" [] [("x", [MEMBRANE])]) modelsW).2
      [(("o", BULK), 0)] ("x", MEMBRANE) 1 [] (by decide) (by decide) (by decide)

theorem eocPortStep_eoc (name : String) (acc : EOCAcc) (k : Nat) :
    (eocPortStep name acc k).eoc = acc.eoc ++ [prodLink name k, infoLink name k] := by
  unfold eocPortStep
  by_cases hk : k ∈ acc.out_port_numbers <;> simp [hk]

theorem foldl_eocPortStep_eoc (name : String) :
    ∀ (ks : List Nat) (acc : EOCAcc),
      (ks.foldl (eocPortStep name) acc).eoc
        = acc.eoc ++ ks.flatMap (fun k => [prodLink name k, infoLink name k]) := by
  intro ks
  induction ks with
  | nil => intro acc; simp
  | cons k rest ih =>
      intro acc
      simp only [List.foldl_cons, ih, eocPortStep_eoc, List.flatMap_cons]
      simp

theorem orgEOC_eoc_aux :
    ∀ (es : List EnzymeSetModel) (acc : EOCAcc),
      (es.foldl eocModelStep acc).eoc
        = acc.eoc ++ es.flatMap (fun m =>
            (List.range' 1 (m.output_port_amount - 1)).flatMap
              (fun k => [prodLink m.name k, infoLink m.name k])) := by
  intro es
  induction es with
  | nil => intro acc; simp
  | cons m rest ih =>
      intro acc
      simp only [List.foldl_cons, ih, eocModelStep, foldl_eocPortStep_eoc,
        List.flatMap_cons]
      simp

/-- The EOC-loop invariant: the declared output ports are exactly one
product and one information declaration per seen port number, and the seen
port numbers are duplicate-free. -/
def EOCInv (acc : EOCAcc) : Prop :=
  acc.out_ports = acc.out_port_numbers.flatMap (fun k => [prodDecl k, infoDecl k]) ∧
  acc.out_port_numbers.Nodup

theorem eocPortStep_inv (name : String) (acc : EOCAcc) (k : Nat)
    (h : EOCInv acc) : EOCInv (eocPortStep name acc k) := by
  unfold eocPortStep EOCInv
  by_cases hk : k ∈ acc.out_port_numbers
  · simpa [hk] using h
  · simp only [hk, if_false]
    refine ⟨?_, ?_⟩
    · simp only [List.flatMap_append, h.1]
      simp
    · simp only [List.nodup_append, h.2, List.nodup_singleton]
      exact ⟨trivial, trivial, by
        intro a ha hb
        simp at hb
        exact hk (hb ▸ ha)⟩

theorem foldl_eocPortStep_inv (name : String) :
    ∀ (ks : List Nat) (acc : EOCAcc), EOCInv acc →
      EOCInv (ks.foldl (eocPortStep name) acc) := by
  intro ks
  induction ks with
  | nil => intro acc h; exact h
  | cons k rest ih => intro acc h; exact ih _ (eocPortStep_inv name acc k h)

theorem orgEOC_inv (es : List EnzymeSetModel) : EOCInv (orgEOC es) := by
  unfold orgEOC
  generalize hacc : (⟨[], [], []⟩ : EOCAcc) = acc
  have h0 : EOCInv acc := by rw [← hacc]; exact ⟨rfl, List.nodup_nil⟩
  clear hacc
  induction es generalizing acc with
  | nil => exact h0
  | cons m rest ih =>
      simp only [List.foldl_cons]
      exact ih _ (foldl_eocPortStep_inv m.name _ acc h0)

/-- C6: in a successfully assembled organelle descriptor the EOC holds, for
every reaction-set model of output amount N, exactly one product and one
information edge per port k in 1..N-1 (port 0 never appears), while the
compartment-level output-port declarations list each seen port number
exactly once (one product and one information declaration), followed by the
input-port declarations. -/
theorem claim_C6 (space : String) (ms : ModelStructure)
    (models : String → EnzymeSetModel) (d : CoupledModel)
    (h : generateOrganelleCompartment space ms models = Except.ok d) :
    d.eoc = ((generateEnzymeSets ms models).map Prod.snd).flatMap
        (fun m => (List.range' 1 (m.output_port_amount - 1)).flatMap
          (fun k => [prodLink m.name k, infoLink m.name k])) ∧
    (∀ l ∈ d.eoc, ∃ m k, m ∈ (generateEnzymeSets ms models).map Prod.snd ∧
      1 ≤ k ∧ k < m.output_port_amount ∧
      (l = prodLink m.name k ∨ l = infoLink m.name k)) ∧
    (orgEOC ((generateEnzymeSets ms models).map Prod.snd)).out_port_numbers.Nodup ∧
    (∃ inp, d.ports =
      (orgEOC ((generateEnzymeSets ms models).map Prod.snd)).out_port_numbers.flatMap
        (fun k => [prodDecl k, infoDecl k]) ++ inp) := by
  simp only [generateOrganelleCompartment] at h
  cases hic : orgICLoop space ms.id (generateEnzymeSets ms models) ms.routing_table with
  | error e => rw [hic] at h; cases h
  | ok ic =>
      rw [hic] at h
      cases heic : orgEICLoop ms.id (generateEnzymeSets ms models) ms.membrane_eic with
      | error e => rw [heic] at h; cases h
      | ok pr =>
          obtain ⟨eic, inp⟩ := pr
          rw [heic] at h
          have hd := Except.ok.inj h
          have heoc : d.eoc = (orgEOC ((generateEnzymeSets ms models).map Prod.snd)).eoc := by
            rw [← hd]
          have hports : d.ports =
              (orgEOC ((generateEnzymeSets ms models).map Prod.snd)).out_ports ++ inp := by
            rw [← hd]
          have hinv := orgEOC_inv ((generateEnzymeSets ms models).map Prod.snd)
          have heoc2 : d.eoc = ((generateEnzymeSets ms models).map Prod.snd).flatMap
              (fun m => (List.range' 1 (m.output_port_amount - 1)).flatMap
                (fun k => [prodLink m.name k, infoLink m.name k])) := by
            rw [heoc]
            show (List.foldl eocModelStep ⟨[], [], []⟩ _).eoc = _
            rw [orgEOC_eoc_aux]
            rfl
          refine ⟨heoc2, ?_, hinv.2, ⟨inp, by rw [hports, hinv.1]⟩⟩
          intro l hl
          rw [heoc2] at hl
          rw [List.mem_flatMap] at hl
          obtain ⟨m, hm, hl⟩ := hl
          rw [List.mem_flatMap] at hl
          obtain ⟨k, hk, hl⟩ := hl
          rw [List.mem_range'] at hk
          obtain ⟨i, hi, rfl⟩ := hk
          refine ⟨m, 1 + 1 * i, hm, by omega, by omega, ?_⟩
          simpa using hl

/-- The descriptor assembled for a compartment `p` with membranes
`[OUTER, INNER]` when every enzyme-set model exposes two output ports:
used by the C6 witness. -/
def dC6W : CoupledModel :=
  { cid := "p"
    sub_models := ["s", "bulk_m", "outer_m", "inner_m"]
    ports := [prodDecl 1, infoDecl 1,
      ⟨Port.num 0, REACTANT_MESSAGE_TYPE, "in"⟩,
      ⟨Port.num 1, REACTANT_MESSAGE_TYPE, "in"⟩]
    eic := [⟨"outer_m", enzymeNS, Port.num 0, Port.num 0⟩,
            ⟨"inner_m", enzymeNS, Port.num 0, Port.num 1⟩]
    eoc := [prodLink "bulk_m" 1, infoLink "bulk_m" 1, prodLink "outer_m" 1,
            infoLink "outer_m" 1, prodLink "inner_m" 1, infoLink "inner_m" 1]
    ic := [ICEdge.full "s" (spaceNS "s") (Port.num 0) "bulk_m" enzymeNS (Port.num 0),
           ICEdge.full "bulk_m" enzymeNS (Port.str "0_product")
             "s" (spaceNS "s") (Port.str "0_product"),
           ICEdge.full "bulk_m" enzymeNS (Port.str "0_information")
             "s" (spaceNS "s") (Port.str "0_information"),
           ICEdge.full "s" (spaceNS "s") (Port.num 1) "outer_m" enzymeNS (Port.num 0),
           ICEdge.full "outer_m" enzymeNS (Port.str "0_product")
             "s" (spaceNS "s") (Port.str "0_product"),
           ICEdge.full "outer_m" enzymeNS (Port.str "0_information")
             "s" (spaceNS "s") (Port.str "0_information"),
           ICEdge.full "s" (spaceNS "s") (Port.num 2) "inner_m" enzymeNS (Port.num 0),
           ICEdge.full "inner_m" enzymeNS (Port.str "0_product")
             "s" (spaceNS "s") (Port.str "0_product"),
           ICEdge.full "inner_m" enzymeNS (Port.str "0_information")
             "s" (spaceNS "s") (Port.str "0_information")] }

/-- C6 witness: three reaction sets all producing output port 1 yield six
EOC edges but a single pair of compartment-level port declarations. -/
theorem claim_C6_witness :
    generateOrganelleCompartment "s" (mkModelStructure "p" [OUTER, INNER] []) modelsW
      = Except.ok dC6W ∧
    dC6W.eoc = [prodLink "bulk_m" 1, infoLink "bulk_m" 1, prodLink "outer_m" 1,
      infoLink "outer_m" 1, prodLink "inner_m" 1, infoLink "inner_m" 1] ∧
    (orgEOC ((generateEnzymeSets (mkModelStructure "p" [OUTER, INNER] []) modelsW).map
      Prod.snd)).out_port_numbers.Nodup := by
  have hg : generateOrganelleCompartment "s" (mkModelStructure "p" [OUTER, INNER] [])
      modelsW = Except.ok dC6W := by rfl
  have h := claim_C6 "s" (mkModelStructure "p" [OUTER, INNER] []) modelsW dC6W hg
  exact ⟨hg, h.1.trans (by decide), h.2.2.1⟩

/-! ### generate_top_bulk_ic (ModelGenerator.py lines 368-383) -/

/-- The loop of lines 376-382: entries addressed to the bulk compartment
itself are skipped, entries addressed to the periplasm connect the bulk
output port to the periplasm membrane port found in the periplasm's
`membrane_eic` (a dict read that can raise `KeyError`), all other entries
contribute nothing. -/
def topBulkICLoop (periplasm_id : String) (periplasm_meic : List (String × Nat))
    (bulk_model bulk_cid periplasm_model : String) :
    List ((String × String) × Nat) → Except GenError (List ICEdge)
  | [] => Except.ok []
  | ((cid, esn), c_port) :: rest =>
      if cid = bulk_cid then
        topBulkICLoop periplasm_id periplasm_meic bulk_model bulk_cid periplasm_model rest
      else if cid = periplasm_id then
        match dget esn periplasm_meic with
        | some pport =>
            match topBulkICLoop periplasm_id periplasm_meic bulk_model bulk_cid
                periplasm_model rest with
            | Except.ok tl => Except.ok
                (ICEdge.full bulk_model bulk_model (Port.num c_port)
                  periplasm_model periplasm_model (Port.num pport) :: tl)
            | Except.error e => Except.error e
        | none => Except.error GenError.keyError
      else
        topBulkICLoop periplasm_id periplasm_meic bulk_model bulk_cid periplasm_model rest

/-- `generate_top_bulk_ic` (lines 368-383): the two unconditional
periplasm-to-bulk edges (periplasm output port 1 for the cytoplasm, 2
otherwise) followed by the routing-table loop. -/
def generateTopBulkIC (cytoplasm_id periplasm_id : String)
    (periplasm_meic : List (String × Nat)) (bulk_model bulk_cid : String)
    (bulk_routing_table : List ((String × String) × Nat))
    (periplasm_model : String) : Except GenError (List ICEdge) :=
  let n : Nat := if bulk_cid = cytoplasm_id then 1 else 2
  match topBulkICLoop periplasm_id periplasm_meic bulk_model bulk_cid periplasm_model
      bulk_routing_table with
  | Except.ok tl => Except.ok
      (ICEdge.full periplasm_model periplasm_model (Port.str (toString n ++ "_product"))
          bulk_model bulk_model (Port.str "0_product")
        :: ICEdge.full periplasm_model periplasm_model
          (Port.str (toString n ++ "_information"))
          bulk_model bulk_model (Port.str "0_information")
        :: tl)
  | Except.error e => Except.error e

/-- Every edge the routing loop of `generate_top_bulk_ic` emits carries
numeric ports from the bulk model to the periplasm model. -/
theorem topBulkICLoop_shape (periplasm_id : String)
    (periplasm_meic : List (String × Nat)) (bulk_model bulk_cid periplasm_model : String) :
    ∀ (rt : List ((String × String) × Nat)) (tl : List ICEdge),
      topBulkICLoop periplasm_id periplasm_meic bulk_model bulk_cid periplasm_model rt
        = Except.ok tl →
      ∀ e ∈ tl, ∃ cp pp, e = ICEdge.full bulk_model bulk_model (Port.num cp)
        periplasm_model periplasm_model (Port.num pp) := by
  intro rt
  induction rt with
  | nil =>
      intro tl h e he
      rw [topBulkICLoop] at h
      cases h
      simp at he
  | cons x rest ih =>
      intro tl h e he
      obtain ⟨⟨cid, esn⟩, c_port⟩ := x
      rw [topBulkICLoop] at h
      by_cases h1 : cid = bulk_cid
      · rw [if_pos h1] at h
        exact ih tl h e he
      · rw [if_neg h1] at h
        by_cases h2 : cid = periplasm_id
        · rw [if_pos h2] at h
          cases hd : dget esn periplasm_meic with
          | none => rw [hd] at h; cases h
          | some pp =>
              rw [hd] at h
              cases hr : topBulkICLoop periplasm_id periplasm_meic bulk_model bulk_cid
                  periplasm_model rest with
              | error e' => rw [hr] at h; cases h
              | ok tl' =>
                  rw [hr] at h
                  cases h
                  rcases List.mem_cons.mp he with rfl | he'
                  · exact ⟨c_port, pp, rfl⟩
                  · exact ih tl' hr e he'
        · rw [if_neg h2] at h
          exact ih tl h e he

/-- C7: the coupling list returned by `generate_top_bulk_ic` starts with
the edges wiring the periplasm model's `n_product` and `n_information`
output ports to the bulk model's `0_product`/`0_information` input ports,
with n = 1 for the cytoplasm and n = 2 otherwise; each of the two edges
occurs exactly once in the whole list. -/
theorem claim_C7 (cytoplasm_id periplasm_id : String)
    (periplasm_meic : List (String × Nat)) (bulk_model bulk_cid : String)
    (bulk_routing_table : List ((String × String) × Nat)) (periplasm_model : String)
    (r : List ICEdge)
    (h : generateTopBulkIC cytoplasm_id periplasm_id periplasm_meic bulk_model bulk_cid
      bulk_routing_table periplasm_model = Except.ok r) :
    ∃ tl,
      r = ICEdge.full periplasm_model periplasm_model
            (Port.str (toString (if bulk_cid = cytoplasm_id then (1 : Nat) else 2)
              ++ "_product"))
            bulk_model bulk_model (Port.str "0_product")
          :: ICEdge.full periplasm_model periplasm_model
            (Port.str (toString (if bulk_cid = cytoplasm_id then (1 : Nat) else 2)
              ++ "_information"))
            bulk_model bulk_model (Port.str "0_information")
          :: tl ∧
      r.count (ICEdge.full periplasm_model periplasm_model
          (Port.str (toString (if bulk_cid = cytoplasm_id then (1 : Nat) else 2)
            ++ "_product"))
          bulk_model bulk_model (Port.str "0_product")) = 1 ∧
      r.count (ICEdge.full periplasm_model periplasm_model
          (Port.str (toString (if bulk_cid = cytoplasm_id then (1 : Nat) else 2)
            ++ "_information"))
          bulk_model bulk_model (Port.str "0_information")) = 1 := by
  simp only [generateTopBulkIC] at h
  cases hl : topBulkICLoop periplasm_id periplasm_meic bulk_model bulk_cid periplasm_model
      bulk_routing_table with
  | error e => rw [hl] at h; cases h
  | ok tl =>
      rw [hl] at h
      have hr := (Except.ok.inj h).symm
      have hshape := topBulkICLoop_shape periplasm_id periplasm_meic bulk_model bulk_cid
        periplasm_model bulk_routing_table tl hl
      have hnot1 : ICEdge.full periplasm_model periplasm_model
          (Port.str (toString (if bulk_cid = cytoplasm_id then (1 : Nat) else 2)
            ++ "_product"))
          bulk_model bulk_model (Port.str "0_product") ∉ tl := by
        intro hmem
        obtain ⟨cp, pp, he⟩ := hshape _ hmem
        simp [ICEdge.full.injEq] at he
      have hnot2 : ICEdge.full periplasm_model periplasm_model
          (Port.str (toString (if bulk_cid = cytoplasm_id then (1 : Nat) else 2)
            ++ "_information"))
          bulk_model bulk_model (Port.str "0_information") ∉ tl := by
        intro hmem
        obtain ⟨cp, pp, he⟩ := hshape _ hmem
        simp [ICEdge.full.injEq] at he
      have hne : (ICEdge.full periplasm_model periplasm_model
          (Port.str (toString (if bulk_cid = cytoplasm_id then (1 : Nat) else 2)
            ++ "_product"))
          bulk_model bulk_model (Port.str "0_product"))
          ≠ ICEdge.full periplasm_model periplasm_model
          (Port.str (toString (if bulk_cid = cytoplasm_id then (1 : Nat) else 2)
            ++ "_information"))
          bulk_model bulk_model (Port.str "0_information") := by
        intro he
        have := (ICEdge.full.inj he).2.2.2.2.2
        simp at this
      refine ⟨tl, hr, ?_, ?_⟩
      · rw [hr]
        rw [List.count_cons_self, List.count_cons_of_ne hne,
          List.count_eq_zero_of_not_mem hnot1]
      · rw [hr]
        rw [List.count_cons_of_ne (Ne.symm hne), List.count_cons_self,
          List.count_eq_zero_of_not_mem hnot2]

/-- C7 witness: an extracellular-style bulk compartment (id `e ≠ c`) gets
the periplasm's port-2 edges first and exactly once; the single own-id
routing entry contributes nothing. -/
theorem claim_C7_witness :
    generateTopBulkIC "c" "p" [(OUTER, 0)] "em" "e" [(("e", BULK), 0)] "pm"
      = Except.ok
        [ICEdge.full "pm" "pm" (Port.str "2_product") "em" "em" (Port.str "0_product"),
         ICEdge.full "pm" "pm" (Port.str "2_information") "em" "em"
           (Port.str "0_information")] ∧
    [ICEdge.full "pm" "pm" (Port.str "2_product") "em" "em" (Port.str "0_product"),
     ICEdge.full "pm" "pm" (Port.str "2_information") "em" "em"
       (Port.str "0_information")].count
      (ICEdge.full "pm" "pm" (Port.str "2_product") "em" "em" (Port.str "0_product")) = 1 := by
  have hg : generateTopBulkIC "c" "p" [(OUTER, 0)] "em" "e" [(("e", BULK), 0)] "pm"
      = Except.ok
        [ICEdge.full "pm" "pm" (Port.str "2_product") "em" "em" (Port.str "0_product"),
         ICEdge.full "pm" "pm" (Port.str "2_information") "em" "em"
           (Port.str "0_information")] := by rfl
  obtain ⟨tl, hr, hc1, hc2⟩ := claim_C7 "c" "p" [(OUTER, 0)] "em" "e" [(("e", BULK), 0)]
    "pm" _ hg
  exact ⟨hg, hc1⟩

/-- The edges one bulk routing-table entry contributes in the loop of
`generate_top_bulk_ic` (lines 376-382). -/
def topBulkEdge (periplasm_id : String) (periplasm_meic : List (String × Nat))
    (bulk_model bulk_cid periplasm_model : String)
    (e : (String × String) × Nat) : List ICEdge :=
  if e.1.1 = bulk_cid then []
  else if e.1.1 = periplasm_id then
    match dget e.1.2 periplasm_meic with
    | some pp => [ICEdge.full bulk_model bulk_model (Port.num e.2)
        periplasm_model periplasm_model (Port.num pp)]
    | none => []
  else []

/-- Closed form for the routing loop of `generate_top_bulk_ic` when every
periplasm-addressed reaction-set name resolves in the periplasm's
`membrane_eic`. -/
theorem topBulkICLoop_ok (periplasm_id : String)
    (periplasm_meic : List (String × Nat)) (bulk_model bulk_cid periplasm_model : String) :
    ∀ (rt : List ((String × String) × Nat)),
      (∀ e ∈ rt, e.1.1 = periplasm_id → e.1.1 ≠ bulk_cid →
        (dget e.1.2 periplasm_meic).isSome) →
      topBulkICLoop periplasm_id periplasm_meic bulk_model bulk_cid periplasm_model rt
        = Except.ok (rt.flatMap
            (topBulkEdge periplasm_id periplasm_meic bulk_model bulk_cid periplasm_model)) := by
  intro rt
  induction rt with
  | nil => intro _; rfl
  | cons x rest ih =>
      intro h
      obtain ⟨⟨cid, esn⟩, c_port⟩ := x
      have hrest := ih (fun e he h1 h2 => h e (List.mem_cons_of_mem _ he) h1 h2)
      rw [topBulkICLoop, List.flatMap_cons]
      by_cases h1 : cid = bulk_cid
      · rw [if_pos h1, hrest]
        show _ = Except.ok (topBulkEdge _ _ _ _ _ ((cid, esn), c_port) ++ _)
        rw [topBulkEdge, if_pos h1]
        rfl
      · rw [if_neg h1]
        by_cases h2 : cid = periplasm_id
        · rw [if_pos h2]
          obtain ⟨pp, hpp⟩ := Option.isSome_iff_exists.mp
            (h _ (List.mem_cons_self _ _) h2 h1)
          rw [show dget esn periplasm_meic = some pp from hpp, hrest]
          show _ = Except.ok (topBulkEdge _ _ _ _ _ ((cid, esn), c_port) ++ _)
          rw [topBulkEdge, if_neg h1, if_pos h2]
          rw [hpp]
          rfl
        · rw [if_neg h2, hrest]
          show _ = Except.ok (topBulkEdge _ _ _ _ _ ((cid, esn), c_port) ++ _)
          rw [topBulkEdge, if_neg h1, if_neg h2]
          rfl

/-- C8: in `generate_top_bulk_ic`, a routing-table entry `((cid, esn), p)`
with `cid` the periplasm id yields exactly one edge from the bulk model's
output port `p` to the periplasm's `membrane_eic[esn]` input port; entries
with `cid` the bulk compartment's own id, or any other non-periplasm id,
yield no edge (stated for the intended configuration where the periplasm id
differs from the bulk compartment id). -/
theorem claim_C8 (cytoplasm_id periplasm_id : String)
    (periplasm_meic : List (String × Nat)) (bulk_model bulk_cid : String)
    (bulk_routing_table : List ((String × String) × Nat)) (periplasm_model : String)
    (hne : periplasm_id ≠ bulk_cid)
    (hlk : ∀ e ∈ bulk_routing_table, e.1.1 = periplasm_id →
      (dget e.1.2 periplasm_meic).isSome) :
    generateTopBulkIC cytoplasm_id periplasm_id periplasm_meic bulk_model bulk_cid
        bulk_routing_table periplasm_model
      = Except.ok
        (ICEdge.full periplasm_model periplasm_model
            (Port.str (toString (if bulk_cid = cytoplasm_id then (1 : Nat) else 2)
              ++ "_product"))
            bulk_model bulk_model (Port.str "0_product")
          :: ICEdge.full periplasm_model periplasm_model
            (Port.str (toString (if bulk_cid = cytoplasm_id then (1 : Nat) else 2)
              ++ "_information"))
            bulk_model bulk_model (Port.str "0_information")
          :: bulk_routing_table.flatMap
            (topBulkEdge periplasm_id periplasm_meic bulk_model bulk_cid periplasm_model)) ∧
    (∀ e ∈ bulk_routing_table,
      (e.1.1 = periplasm_id →
        ∃ pp, dget e.1.2 periplasm_meic = some pp ∧
          topBulkEdge periplasm_id periplasm_meic bulk_model bulk_cid periplasm_model e
            = [ICEdge.full bulk_model bulk_model (Port.num e.2)
                periplasm_model periplasm_model (Port.num pp)]) ∧
      (e.1.1 ≠ periplasm_id →
        topBulkEdge periplasm_id periplasm_meic bulk_model bulk_cid periplasm_model e
          = [])) := by
  constructor
  · simp only [generateTopBulkIC]
    rw [topBulkICLoop_ok periplasm_id periplasm_meic bulk_model bulk_cid periplasm_model
      bulk_routing_table (fun e he h1 _ => hlk e he h1)]
  · intro e he
    constructor
    · intro hp
      obtain ⟨pp, hpp⟩ := Option.isSome_iff_exists.mp (hlk e he hp)
      refine ⟨pp, hpp, ?_⟩
      rw [topBulkEdge, if_neg (by rw [hp]; exact hne), if_pos hp, hpp]
    · intro hp
      rw [topBulkEdge]
      by_cases h1 : e.1.1 = bulk_cid
      · rw [if_pos h1]
      · rw [if_neg h1, if_neg hp]

/-- C8 witness: an extracellular compartment built against a periplasm
supplying `OUTER` and `TRANS` routes those two entries to the periplasm's
membrane ports 0 and 2 and keeps its own bulk entry unrouted. -/
theorem claim_C8_witness :
    generateTopBulkIC "c" "p"
        (mkModelStructure "p" [OUTER, INNER, TRANS] []).membrane_eic
        "em" "e" (mkModelStructure "e" [] [("p", [OUTER, TRANS])]).routing_table "pm"
      = Except.ok
        [ICEdge.full "pm" "pm" (Port.str "2_product") "em" "em" (Port.str "0_product"),
         ICEdge.full "pm" "pm" (Port.str "2_information") "em" "em"
           (Port.str "0_information"),
         ICEdge.full "em" "em" (Port.num 1) "pm" "pm" (Port.num 0),
         ICEdge.full "em" "em" (Port.num 2) "pm" "pm" (Port.num 2)] := by
  have h := claim_C8 "c" "p"
    (mkModelStructure "p" [OUTER, INNER, TRANS] []).membrane_eic
    "em" "e" (mkModelStructure "e" [] [("p", [OUTER, TRANS])]).routing_table "pm"
    (by decide) (by decide)
  exact h.1.trans (by rfl)

/-! ### The organelle wiring loop of generate_top (ModelGenerator.py
lines 348-361)

Note on line 357: `e_port_number = self.cytoplasm.routing_table[(cid, esn)]`
is the same cytoplasm routing-table read as `c_port_number` on line 350
(same dict, same key), so the embedding binds the value once and uses it
for both the cytoplasm-sourced and the extracellular-sourced edge. -/

/-- The inner `for esn, es_port_number in membrane_eic.items()` loop for one
organelle `(cid, model triple)`. -/
def topOrgInner (cyt_model ext_model : String)
    (cyt_rt : List ((String × String) × Nat)) (cid : String) (m : EnzymeSetModel) :
    List (String × Nat) → Except GenError (List ICEdge)
  | [] => Except.ok []
  | (esn, es_port) :: rest =>
      match dget (cid, esn) cyt_rt with
      | none => Except.error GenError.keyError
      | some c_port =>
          match topOrgInner cyt_model ext_model cyt_rt cid m rest with
          | Except.error e => Except.error e
          | Except.ok tl => Except.ok
              (([ICEdge.short cyt_model (Port.num c_port) m.name (Port.num es_port),
                 ICEdge.full m.name m.name (Port.str "1_product")
                   cyt_model cyt_model (Port.str "0_product"),
                 ICEdge.full m.name m.name (Port.str "1_information")
                   cyt_model cyt_model (Port.str "0_information")]
                ++ (if 1 < m.output_port_amount then
                    [ICEdge.full ext_model ext_model (Port.num c_port)
                       m.name m.name (Port.num es_port),
                     ICEdge.full m.name m.name (Port.str "2_product")
                       ext_model ext_model (Port.str "0_product"),
                     ICEdge.full m.name m.name (Port.str "2_information")
                       ext_model ext_model (Port.str "0_information")]
                  else []))
                ++ tl)

/-- The outer `for cid, (model_name, _, output_port_amount) in
organelle_models.items()` loop: each organelle is given as
`(cid, coder triple, membrane_eic)`. -/
def topOrganelleIC (cyt_model ext_model : String)
    (cyt_rt : List ((String × String) × Nat)) :
    List (String × EnzymeSetModel × List (String × Nat)) →
      Except GenError (List ICEdge)
  | [] => Except.ok []
  | (cid, m, meic) :: rest =>
      match topOrgInner cyt_model ext_model cyt_rt cid m meic with
      | Except.error e => Except.error e
      | Except.ok edges =>
          match topOrganelleIC cyt_model ext_model cyt_rt rest with
          | Except.error e => Except.error e
          | Except.ok tl => Except.ok (edges ++ tl)

/-- The edges one membrane entry of one organelle contributes in the loop
of lines 348-361, when its cytoplasm routing-table lookup succeeds. -/
def topOrgEdges (cyt_model ext_model : String)
    (cyt_rt : List ((String × String) × Nat)) (cid : String) (m : EnzymeSetModel)
    (e : String × Nat) : List ICEdge :=
  match dget (cid, e.1) cyt_rt with
  | some c_port =>
      [ICEdge.short cyt_model (Port.num c_port) m.name (Port.num e.2),
       ICEdge.full m.name m.name (Port.str "1_product")
         cyt_model cyt_model (Port.str "0_product"),
       ICEdge.full m.name m.name (Port.str "1_information")
         cyt_model cyt_model (Port.str "0_information")]
      ++ (if 1 < m.output_port_amount then
          [ICEdge.full ext_model ext_model (Port.num c_port)
             m.name m.name (Port.num e.2),
           ICEdge.full m.name m.name (Port.str "2_product")
             ext_model ext_model (Port.str "0_product"),
           ICEdge.full m.name m.name (Port.str "2_information")
             ext_model ext_model (Port.str "0_information")]
        else [])
  | none => []

theorem topOrgInner_ok (cyt_model ext_model : String)
    (cyt_rt : List ((String × String) × Nat)) (cid : String) (m : EnzymeSetModel) :
    ∀ (meic : List (String × Nat)),
      (∀ e ∈ meic, (dget (cid, e.1) cyt_rt).isSome) →
      topOrgInner cyt_model ext_model cyt_rt cid m meic
        = Except.ok (meic.flatMap (topOrgEdges cyt_model ext_model cyt_rt cid m)) := by
  intro meic
  induction meic with
  | nil => intro _; rfl
  | cons e rest ih =>
      intro h
      obtain ⟨esn, es_port⟩ := e
      obtain ⟨c_port, hc⟩ := Option.isSome_iff_exists.mp (h _ (List.mem_cons_self _ _))
      rw [topOrgInner, hc, ih (fun e' he' => h e' (List.mem_cons_of_mem _ he')),
        List.flatMap_cons]
      show Except.ok _ = Except.ok (topOrgEdges _ _ _ _ _ (esn, es_port) ++ _)
      rw [topOrgEdges]
      simp only [hc]

/-- C9: for every organelle and membrane entry, the top-level loop drives
the organelle's membrane-input port from the cytoplasm's routing-table port
for `(organelle id, esn)`, always wires the organelle's
`1_product`/`1_information` outputs to the cytoplasm's
`0_product`/`0_information` inputs, and, when the organelle's output-port
amount exceeds 1, also wires its `2_product`/`2_information` outputs to the
extracellular model's `0_product`/`0_information` inputs. -/
theorem claim_C9 (cyt_model ext_model : String)
    (cyt_rt : List ((String × String) × Nat))
    (orgs : List (String × EnzymeSetModel × List (String × Nat)))
    (h : ∀ o ∈ orgs, ∀ e ∈ o.2.2, (dget (o.1, e.1) cyt_rt).isSome) :
    topOrganelleIC cyt_model ext_model cyt_rt orgs
      = Except.ok (orgs.flatMap (fun o =>
          o.2.2.flatMap (topOrgEdges cyt_model ext_model cyt_rt o.1 o.2.1))) ∧
    (∀ o ∈ orgs, ∀ e ∈ o.2.2, ∃ c_port,
      dget (o.1, e.1) cyt_rt = some c_port ∧
      topOrgEdges cyt_model ext_model cyt_rt o.1 o.2.1 e
        = [ICEdge.short cyt_model (Port.num c_port) o.2.1.name (Port.num e.2),
           ICEdge.full o.2.1.name o.2.1.name (Port.str "1_product")
             cyt_model cyt_model (Port.str "0_product"),
           ICEdge.full o.2.1.name o.2.1.name (Port.str "1_information")
             cyt_model cyt_model (Port.str "0_information")]
          ++ (if 1 < o.2.1.output_port_amount then
              [ICEdge.full ext_model ext_model (Port.num c_port)
                 o.2.1.name o.2.1.name (Port.num e.2),
               ICEdge.full o.2.1.name o.2.1.name (Port.str "2_product")
                 ext_model ext_model (Port.str "0_product"),
               ICEdge.full o.2.1.name o.2.1.name (Port.str "2_information")
                 ext_model ext_model (Port.str "0_information")]
            else [])) := by
  constructor
  · induction orgs with
    | nil => rfl
    | cons o rest ih =>
        obtain ⟨cid, m, meic⟩ := o
        rw [topOrganelleIC,
          topOrgInner_ok cyt_model ext_model cyt_rt cid m meic
            (h _ (List.mem_cons_self _ _)),
          ih (fun o' ho' => h o' (List.mem_cons_of_mem _ ho')), List.flatMap_cons]
  · intro o ho e he
    obtain ⟨c_port, hc⟩ := Option.isSome_iff_exists.mp (h o ho e he)
    refine ⟨c_port, hc, ?_⟩
    rw [topOrgEdges]
    obtain ⟨esn, es_port⟩ := e
    simp only [hc]

/-- C9 witness: one organelle with a two-output-port model gets all six
edges, with both membrane-driving edges sourced at the cytoplasm's routing
port 1. -/
theorem claim_C9_witness :
    topOrganelleIC "cm" "xm"
        (mkModelStructure "c" [] [("o", [MEMBRANE])]).routing_table
        [("o", ⟨"om", 0, 2⟩, [(MEMBRANE, 0)])]
      = Except.ok
        [ICEdge.short "cm" (Port.num 1) "om" (Port.num 0),
         ICEdge.full "om" "om" (Port.str "1_product") "cm" "cm" (Port.str "0_product"),
         ICEdge.full "om" "om" (Port.str "1_information") "cm" "cm"
           (Port.str "0_information"),
         ICEdge.full "xm" "xm" (Port.num 1) "om" "om" (Port.num 0),
         ICEdge.full "om" "om" (Port.str "2_product") "xm" "xm" (Port.str "0_product"),
         ICEdge.full "om" "om" (Port.str "2_information") "xm" "xm"
           (Port.str "0_information")] := by
  have h := claim_C9 "cm" "xm"
    (mkModelStructure "c" [] [("o", [MEMBRANE])]).routing_table
    [("o", ⟨"om", 0, 2⟩, [(MEMBRANE, 0)])] (by decide)
  exact h.1.trans (by rfl)

/-- C10: when an organelle's output-port amount exceeds 1, the edge driving
its membrane-input port from the extracellular model takes its source port
from the cytoplasm's routing table at `(organelle id, esn)` — the loop
never consults an extracellular routing table, so whenever a hypothetical
extracellular table maps that key to a different port, no edge with that
port is emitted. -/
theorem claim_C10 (cyt_model ext_model : String)
    (cyt_rt : List ((String × String) × Nat)) (cid : String) (m : EnzymeSetModel)
    (esn : String) (es_port c_port : Nat)
    (hamt : 1 < m.output_port_amount)
    (hc : dget (cid, esn) cyt_rt = some c_port) :
    topOrganelleIC cyt_model ext_model cyt_rt [(cid, m, [(esn, es_port)])]
      = Except.ok
        [ICEdge.short cyt_model (Port.num c_port) m.name (Port.num es_port),
         ICEdge.full m.name m.name (Port.str "1_product")
           cyt_model cyt_model (Port.str "0_product"),
         ICEdge.full m.name m.name (Port.str "1_information")
           cyt_model cyt_model (Port.str "0_information"),
         ICEdge.full ext_model ext_model (Port.num c_port)
           m.name m.name (Port.num es_port),
         ICEdge.full m.name m.name (Port.str "2_product")
           ext_model ext_model (Port.str "0_product"),
         ICEdge.full m.name m.name (Port.str "2_information")
           ext_model ext_model (Port.str "0_information")] ∧
    (∀ (ext_rt : List ((String × String) × Nat)) (q : Nat),
      dget (cid, esn) ext_rt = some q → q ≠ c_port →
      ICEdge.full ext_model ext_model (Port.num q) m.name m.name (Port.num es_port)
        ∉ [ICEdge.short cyt_model (Port.num c_port) m.name (Port.num es_port),
           ICEdge.full m.name m.name (Port.str "1_product")
             cyt_model cyt_model (Port.str "0_product"),
           ICEdge.full m.name m.name (Port.str "1_information")
             cyt_model cyt_model (Port.str "0_information"),
           ICEdge.full ext_model ext_model (Port.num c_port)
             m.name m.name (Port.num es_port),
           ICEdge.full m.name m.name (Port.str "2_product")
             ext_model ext_model (Port.str "0_product"),
           ICEdge.full m.name m.name (Port.str "2_information")
             ext_model ext_model (Port.str "0_information")]) := by
  constructor
  · simp only [topOrganelleIC, topOrgInner, hc, if_pos hamt]
    simp
  · intro ext_rt q _ hne
    simp [hne]

/-- C10 witness: with the cytoplasm routing `(o, MEMBRANE)` to port 1 and a
hypothetical extracellular table routing it to port 5, the emitted
extracellular-sourced edge uses port 1, and no port-5 edge exists. -/
theorem claim_C10_witness :
    topOrganelleIC "cm2" "xm2"
        (mkModelStructure "c" [] [("o", [MEMBRANE])]).routing_table
        [("o", ⟨"om2", 0, 2⟩, [(MEMBRANE, 0)])]
      = Except.ok
        [ICEdge.short "cm2" (Port.num 1) "om2" (Port.num 0),
         ICEdge.full "om2" "om2" (Port.str "1_product") "cm2" "cm2"
           (Port.str "0_product"),
         ICEdge.full "om2" "om2" (Port.str "1_information") "cm2" "cm2"
           (Port.str "0_information"),
         ICEdge.full "xm2" "xm2" (Port.num 1) "om2" "om2" (Port.num 0),
         ICEdge.full "om2" "om2" (Port.str "2_product") "xm2" "xm2"
           (Port.str "0_product"),
         ICEdge.full "om2" "om2" (Port.str "2_information") "xm2" "xm2"
           (Port.str "0_information")] ∧
    ICEdge.full "xm2" "xm2" (Port.num 5) "om2" "om2" (Port.num 0)
      ∉ [ICEdge.short "cm2" (Port.num 1) "om2" (Port.num 0),
         ICEdge.full "om2" "om2" (Port.str "1_product") "cm2" "cm2"
           (Port.str "0_product"),
         ICEdge.full "om2" "om2" (Port.str "1_information") "cm2" "cm2"
           (Port.str "0_information"),
         ICEdge.full "xm2" "xm2" (Port.num 1) "om2" "om2" (Port.num 0),
         ICEdge.full "om2" "om2" (Port.str "2_product") "xm2" "xm2"
           (Port.str "0_product"),
         ICEdge.full "om2" "om2" (Port.str "2_information") "xm2" "xm2"
           (Port.str "0_information")] := by
  have h := claim_C10 "cm2" "xm2"
    (mkModelStructure "c" [] [("o", [MEMBRANE])]).routing_table
    "o" ⟨"om2", 0, 2⟩ MEMBRANE 0 1 (by decide) (by decide)
  exact ⟨h.1, h.2 [(("o", MEMBRANE), 5)] 5 (by decide) (by decide)⟩

end PMGBP
